import Mathlib

/-!
Verification development for the todos application: a shallow embedding of
the three persistence variants (session-backed store, single-user relational
store, multi-user relational store) and the sort helper, together with
theorems settling the behavioural claims about them.

JavaScript arrays are modelled as Lean lists, objects as structures, numeric
ids as natural numbers, and database tables as lists of row structures kept in
row order.  Fallible calls return `Except String` values, the error string
standing for the thrown JavaScript/postgres error.
-/

/-! ## Data model (session store objects) -/

/-- A todo object of the session store: `{ id, title, done }`. -/
structure Todo where
  id : Nat
  title : String
  done : Bool
deriving Repr, DecidableEq

/-- A todo-list object of the session store: `{ id, title, todos }`. -/
structure TodoList where
  id : Nat
  title : String
  todos : List Todo
deriving Repr, DecidableEq

/-! ## Sort helper (lib/sort.js)

`Array.prototype.sort(comparator)` sorts the array in place; since ES2019 the
sort is stable.  We model it as a stable insertion sort directed by a boolean
`le` relation (`le a b` standing for `comparator(a, b) <= 0`); a freshly
inserted element goes before the elements it ties with that originally came
after it, which matches stability. -/

/-- Insert `x` into `l`, placing it before the first element `y` with
`le x y`. -/
def insertLe (le : α → α → Bool) (x : α) : List α → List α
  | [] => [x]
  | y :: ys => if le x y then x :: y :: ys else y :: insertLe le x ys

/-- Stable insertion sort by the boolean relation `le`. -/
def sortByLe (le : α → α → Bool) : List α → List α
  | [] => []
  | x :: xs => insertLe le x (sortByLe le xs)

theorem insertLe_perm (le : α → α → Bool) (x : α) :
    ∀ l : List α, List.Perm (insertLe le x l) (x :: l) := by
  intro l
  induction l with
  | nil => simp [insertLe]
  | cons y ys ih =>
    by_cases h : le x y = true
    · simp [insertLe, h]
    · simp only [insertLe, h, if_neg]
      simp only [Bool.not_eq_true] at h
      simp [h]
      exact (ih.cons y).trans (List.Perm.swap x y ys)

theorem sortByLe_perm (le : α → α → Bool) :
    ∀ l : List α, List.Perm (sortByLe le l) l := by
  intro l
  induction l with
  | nil => simp [sortByLe]
  | cons x xs ih =>
    exact (insertLe_perm le x (sortByLe le xs)).trans (ih.cons x)

theorem mem_insertLe (le : α → α → Bool) (x : α) (l : List α) (a : α) :
    a ∈ insertLe le x l ↔ a = x ∨ a ∈ l := by
  have h := (insertLe_perm le x l).mem_iff (a := a)
  simpa using h

theorem insertLe_pairwise (le : α → α → Bool)
    (htot : ∀ a b, le a b = true ∨ le b a = true)
    (htrans : ∀ a b c, le a b = true → le b c = true → le a c = true)
    (x : α) :
    ∀ l : List α, l.Pairwise (fun a b => le a b = true) →
      (insertLe le x l).Pairwise (fun a b => le a b = true) := by
  intro l
  induction l with
  | nil => intro _; simp [insertLe]
  | cons y ys ih =>
    intro hp
    rcases List.pairwise_cons.mp hp with ⟨hy, hys⟩
    by_cases h : le x y = true
    · simp only [insertLe, h, if_pos]
      refine List.pairwise_cons.mpr ⟨?_, hp⟩
      intro b hb
      rcases List.mem_cons.mp hb with hb | hb
      · exact hb ▸ h
      · exact htrans x y b h (hy b hb)
    · simp only [insertLe, h, if_neg]
      have hyx : le y x = true := by
        rcases htot x y with h1 | h1
        · exact absurd h1 h
        · exact h1
      refine List.pairwise_cons.mpr ⟨?_, ih hys⟩
      intro b hb
      rcases (mem_insertLe le x ys b).mp hb with hb | hb
      · exact hb ▸ hyx
      · exact hy b hb

theorem sortByLe_pairwise (le : α → α → Bool)
    (htot : ∀ a b, le a b = true ∨ le b a = true)
    (htrans : ∀ a b c, le a b = true → le b c = true → le a c = true) :
    ∀ l : List α, (sortByLe le l).Pairwise (fun a b => le a b = true) := by
  intro l
  induction l with
  | nil => simp [sortByLe]
  | cons x xs ih => exact insertLe_pairwise le htot htrans x _ ih

/-- `String.prototype.toLowerCase`, modelled character-wise.  (Defined over
the character data directly so that concrete inputs evaluate by kernel
reduction.) -/
def jsToLowerCase (s : String) : String := ⟨s.data.map Char.toLower⟩

/-- JavaScript string comparison `a < b`: lexicographic by code unit. -/
def charListLt : List Char → List Char → Bool
  | _, [] => false
  | [], _ :: _ => true
  | a :: as, b :: bs => a < b || (a == b && charListLt as bs)

/-- JavaScript string comparison `a < b` on strings. -/
def jsStringLt (a b : String) : Bool := charListLt a.data b.data

/-- The non-strict order induced by `jsStringLt`. -/
def jsStringLe (a b : String) : Bool := !(jsStringLt b a)

theorem charListLt_irrefl : ∀ l : List Char, charListLt l l = false := by
  intro l
  induction l with
  | nil => rfl
  | cons a as ih => simp [charListLt, ih, lt_irrefl]

theorem charListLt_trans : ∀ a b c : List Char,
    charListLt a b = true → charListLt b c = true → charListLt a c = true := by
  intro a
  induction a with
  | nil =>
    intro b c hab hbc
    cases c with
    | nil => cases b <;> simp [charListLt] at hab hbc
    | cons z zs => simp [charListLt]
  | cons x xs ih =>
    intro b c hab hbc
    cases b with
    | nil => simp [charListLt] at hab
    | cons y ys =>
      cases c with
      | nil => simp [charListLt] at hbc
      | cons z zs =>
        simp only [charListLt, Bool.or_eq_true, decide_eq_true_eq,
          Bool.and_eq_true, beq_iff_eq] at hab hbc ⊢
        rcases hab with h1 | ⟨he1, h1⟩
        · rcases hbc with h2 | ⟨he2, h2⟩
          · exact Or.inl (lt_trans h1 h2)
          · exact Or.inl (he2 ▸ h1)
        · rcases hbc with h2 | ⟨he2, h2⟩
          · exact Or.inl (he1.symm ▸ h2)
          · exact Or.inr ⟨he1.trans he2, ih ys zs h1 h2⟩

theorem charListLt_asymm : ∀ a b : List Char,
    charListLt a b = true → charListLt b a = false := by
  intro a b hab
  cases hba : charListLt b a
  · rfl
  · have hself := charListLt_trans a b a hab hba
    rw [charListLt_irrefl] at hself
    exact Bool.noConfusion hself

theorem charListLt_eq_of_not_lt : ∀ a b : List Char,
    charListLt a b = false → charListLt b a = false → a = b := by
  intro a
  induction a with
  | nil =>
    intro b h1 _
    cases b with
    | nil => rfl
    | cons y ys => simp [charListLt] at h1
  | cons x xs ih =>
    intro b h1 h2
    cases b with
    | nil => simp [charListLt] at h2
    | cons y ys =>
      rcases lt_trichotomy x y with h | h | h
      · rw [show charListLt (x :: xs) (y :: ys) = true by simp [charListLt, h]] at h1
        exact Bool.noConfusion h1
      · subst h
        have h1x : charListLt xs ys = false := by
          simpa [charListLt, lt_irrefl] using h1
        have h2x : charListLt ys xs = false := by
          simpa [charListLt, lt_irrefl] using h2
        rw [ih ys h1x h2x]
      · rw [show charListLt (y :: ys) (x :: xs) = true by simp [charListLt, h]] at h2
        exact Bool.noConfusion h2

theorem jsStringLe_total (a b : String) :
    jsStringLe a b = true ∨ jsStringLe b a = true := by
  cases h : jsStringLt b a
  · exact Or.inl (by simp [jsStringLe, h])
  · have hop := charListLt_asymm b.data a.data h
    exact Or.inr (by simp [jsStringLe, jsStringLt, hop])

theorem jsStringLe_trans (a b c : String) :
    jsStringLe a b = true → jsStringLe b c = true → jsStringLe a c = true := by
  simp only [jsStringLe, jsStringLt, Bool.not_eq_true']
  intro hab hbc
  cases hca : charListLt c.data a.data
  · rfl
  · cases hbc2 : charListLt b.data c.data with
    | false =>
      have hbceq := charListLt_eq_of_not_lt b.data c.data hbc2 hbc
      rw [← hbceq] at hca
      rw [hab] at hca
      exact Bool.noConfusion hca
    | true =>
      have hba := charListLt_trans b.data c.data a.data hbc2 hca
      rw [hab] at hba
      exact Bool.noConfusion hba

/-- `compareByTitle` from lib/sort.js: compares two title-bearing items by
their lower-cased titles, returning -1, 1, or 0. -/
def compareByTitle (title : α → String) (itemA itemB : α) : Int :=
  let titleA := jsToLowerCase (title itemA)
  let titleB := jsToLowerCase (title itemB)
  if jsStringLt titleA titleB then -1
  else if jsStringLt titleB titleA then 1
  else 0

/-- The boolean relation induced by `compareByTitle`:
`compareByTitle a b <= 0`, the order `Array.prototype.sort` establishes. -/
def titleLe (title : α → String) (a b : α) : Bool :=
  decide (compareByTitle title a b ≤ 0)

theorem titleLe_eq (title : α → String) (a b : α) :
    titleLe title a b
      = jsStringLe (jsToLowerCase (title a)) (jsToLowerCase (title b)) := by
  by_cases hab :
      charListLt (jsToLowerCase (title a)).data (jsToLowerCase (title b)).data = true
  · have hba := charListLt_asymm _ _ hab
    simp [titleLe, compareByTitle, jsStringLe, jsStringLt, hab, hba]
  · have habf :
        charListLt (jsToLowerCase (title a)).data (jsToLowerCase (title b)).data = false := by
      cases h : charListLt (jsToLowerCase (title a)).data (jsToLowerCase (title b)).data
      · rfl
      · exact absurd h hab
    by_cases hba :
        charListLt (jsToLowerCase (title b)).data (jsToLowerCase (title a)).data = true
    · simp [titleLe, compareByTitle, jsStringLe, jsStringLt, habf, hba]
    · have hbaf :
          charListLt (jsToLowerCase (title b)).data (jsToLowerCase (title a)).data = false := by
        cases h : charListLt (jsToLowerCase (title b)).data (jsToLowerCase (title a)).data
        · rfl
        · exact absurd h hba
      simp [titleLe, compareByTitle, jsStringLe, jsStringLt, habf, hbaf]

theorem titleLe_total (title : α → String) :
    ∀ a b, titleLe title a b = true ∨ titleLe title b a = true := by
  intro a b
  rw [titleLe_eq, titleLe_eq]
  exact jsStringLe_total _ _

theorem titleLe_trans (title : α → String) :
    ∀ a b c, titleLe title a b = true → titleLe title b c = true →
      titleLe title a c = true := by
  intro a b c hab hbc
  rw [titleLe_eq] at hab hbc ⊢
  exact jsStringLe_trans _ _ _ hab hbc

/-- `sortTodoItems(undone, done)` from lib/sort.js.  The JavaScript function
sorts both argument arrays in place with `compareByTitle` and returns their
concatenation.  The value records the full effect of the call: the first two
components are the contents of the caller-visible `undone` and `done` arrays
after the call (mutated by the in-place sorts), the third is the returned
array. -/
def sortTodoItems (title : α → String) (undone done : List α) :
    List α × List α × List α :=
  let u := sortByLe (titleLe title) undone
  let d := sortByLe (titleLe title) done
  (u, d, u ++ d)

/-! ## Session-backed store (lib/session-persistence.js)

The store state is the `_todoLists` array held in the session.  `deepCopy`
produces structurally equal values, so under value semantics it is the
identity; methods that mutate the store return the updated state, and methods
that can throw return `Except String` values. -/

/-- JavaScript splice/update helper: replace the first element satisfying `p`
by its image under `f`, leaving everything else in place. -/
def updateFirst (p : α → Bool) (f : α → α) : List α → List α
  | [] => []
  | x :: xs => if p x then f x :: xs else x :: updateFirst p f xs

/-- `Array.prototype.findIndex`: index of the first match, `-1` if none. -/
def jsFindIndex (p : α → Bool) (l : List α) : Int :=
  match l.findIdx? p with
  | some i => (i : Int)
  | none => -1

/-- `Array.prototype.splice(start, 1)`: remove one element at `start`; a
negative `start` counts back from the end of the array (so `splice(-1, 1)`
removes the last element). -/
def spliceOne (l : List α) (start : Int) : List α :=
  let s : Nat := if start < 0 then (l.length + start).toNat else start.toNat
  l.take s ++ l.drop (s + 1)

namespace SessionPersistence

/-- `_findTodoList(todoListId)`: first list with the given id. -/
def _findTodoList (todoLists : List TodoList) (todoListId : Nat) : Option TodoList :=
  todoLists.find? (fun todoList => todoList.id == todoListId)

/-- `_findTodo(todoListId, todoId)`: first matching todo of the first
matching list. -/
def _findTodo (todoLists : List TodoList) (todoListId todoId : Nat) : Option Todo :=
  match _findTodoList todoLists todoListId with
  | none => none
  | some todoList => todoList.todos.find? (fun todo => todo.id == todoId)

/-- `isDoneTodoList(todoList)`: the list has at least one todo and every todo
is done. -/
def isDoneTodoList (todoList : TodoList) : Bool :=
  decide (todoList.todos.length > 0) && todoList.todos.all (fun todo => todo.done)

/-- `sortedTodoLists()`: deep-copies the lists, splits them into undone and
done groups, and hands both to `sortTodoItems`.  The store itself is read
only through the deep copy, so the call leaves `_todoLists` unchanged; the
result is the returned array. -/
def sortedTodoLists (todoLists : List TodoList) : List TodoList :=
  let undone := todoLists.filter (fun todoList => !isDoneTodoList todoList)
  let done := todoLists.filter (fun todoList => isDoneTodoList todoList)
  (sortTodoItems TodoList.title undone done).2.2

/-- `toggleTodo(todoListId, todoId)`: the source dereferences the result of
`_findTodo` without a guard (`todo.done = !todo.done`), so a missing list or
todo throws a TypeError; on success the todo found first is flipped in place
and the method returns `undefined` (it carries no success flag). -/
def toggleTodo (todoLists : List TodoList) (todoListId todoId : Nat) :
    Except String (List TodoList) :=
  match _findTodo todoLists todoListId todoId with
  | none => .error "TypeError: cannot set property done of undefined"
  | some _ =>
    .ok (updateFirst (fun todoList => todoList.id == todoListId)
      (fun todoList =>
        { todoList with
          todos := updateFirst (fun todo => todo.id == todoId)
            (fun todo => { todo with done := !todo.done }) todoList.todos })
      todoLists)

/-- `deleteTodo(todoListId, todoId)` translated literally: if the list is
missing it returns `undefined`; otherwise it computes
`todoIndex = findIndex(...)` and the not-found test is `if (!todoIndex)`,
which fires exactly when `todoIndex` is `0`; otherwise it calls
`splice(todoIndex, 1)` — also when `todoIndex` is `-1`, where splice removes
the last element.  Every return path yields `undefined`, modelled as
`Option Bool` that is always `none`. -/
def deleteTodo (todoLists : List TodoList) (todoListId todoId : Nat) :
    Option Bool × List TodoList :=
  match _findTodoList todoLists todoListId with
  | none => (none, todoLists)
  | some todoList =>
    let todoIndex := jsFindIndex (fun todo => todo.id == todoId) todoList.todos
    if todoIndex == 0 then
      (none, todoLists)
    else
      (none, updateFirst (fun tl => tl.id == todoListId)
        (fun tl => { tl with todos := spliceOne tl.todos todoIndex }) todoLists)

end SessionPersistence

/-! ## Relational stores (lib/pg-persistence.js, single-user and multi-user)

Tables are lists of row structures in row order.  The db-query wrapper and
the SQL schema are not part of src/, so query execution is modelled from the
spec (§4.4, §6): parameterized statements over the two tables, a
`todos.todolist_id → todolists.id` foreign key with cascading delete, and a
per-owner unique constraint on list titles.  Row counts are the number of
rows the statement touched. -/

/-- Substring search over character lists, used to model a regular-expression
`test` for a fixed literal pattern. -/
def containsChars (needle : List Char) : List Char → Bool
  | [] => needle.isEmpty
  | c :: rest => needle.isPrefixOf (c :: rest) || containsChars needle rest

/-- `isUniqueConstraintViolation(error)` — textually identical in both
relational classes: `/duplicate key value violates unique constraint/` tested
against the stringified error. -/
def isUniqueConstraintViolation (error : String) : Bool :=
  containsChars "duplicate key value violates unique constraint".toList error.toList

/-- The try/catch of `createdTodoList`, shared by both relational variants,
as a function of the outcome of the INSERT: a resolved query yields
`rowCount > 0`; a thrown error yields `false` when classified as a
unique-constraint violation and is rethrown otherwise. -/
def createdTodoListCatch (queryResult : Except String Nat) : Except String Bool :=
  match queryResult with
  | .ok rowCount => .ok (decide (rowCount > 0))
  | .error e => if isUniqueConstraintViolation e then .ok false else .error e

/-- A `todolists` row of the single-user schema. -/
structure Todolists1Row where
  id : Nat
  title : String
deriving Repr, DecidableEq

/-- A `todos` row of the single-user schema. -/
structure Todos1Row where
  id : Nat
  title : String
  done : Bool
  todolist_id : Nat
deriving Repr, DecidableEq

/-- Single-user database: the two tables plus the id sequence the database
draws generated primary keys from. -/
structure Db1 where
  todolists : List Todolists1Row
  todos : List Todos1Row
  nextId : Nat
deriving Repr, DecidableEq

namespace PgPersistenceSingle

/-- The statements `deleteTodoList` can issue; the trace of issued statements
is part of the modelled result so that the confirmation step is observable. -/
inductive Stmt where
  | deleteTodolistById (id : Nat)
  | selectTodosByListId (id : Nat)
deriving Repr, DecidableEq

/-- Modelled from the spec: execution of the two statements above against the
single-user schema; `DELETE FROM todolists WHERE id = $1` cascades to the
todos of the deleted rows (§6), `SELECT * FROM todos WHERE todolist_id = $1`
reports its row count. -/
def runStmt : Stmt → Db1 → Nat × Db1
  | .deleteTodolistById id, db =>
    let deleted := db.todolists.filter (fun r => r.id == id)
    (deleted.length,
      { db with
        todolists := db.todolists.filter (fun r => !(r.id == id)),
        todos := db.todos.filter
          (fun t => !(deleted.any (fun r => r.id == t.todolist_id))) })
  | .selectTodosByListId id, db =>
    ((db.todos.filter (fun t => t.todolist_id == id)).length, db)

/-- `isDoneTodoList(todoList)` of the single-user relational class, over a
list row joined with its todos rows. -/
def isDoneTodoList (todoList : Todolists1Row × List Todos1Row) : Bool :=
  decide (todoList.2.length > 0) && todoList.2.all (fun todo => todo.done)

/-- `deleteTodoList(todoListId)`: awaits `DELETE_TODO_LIST`, then — the slip
flagged in the spec (§9) — awaits `DELETE_TODO_LIST` a second time as the
confirmation step (`CHECK_TODOS` is declared but never used), and returns
`deleteResult.rowCount > 0 && confirmResult.rowCount === 0`.  The third
component is the trace of issued statements, in order. -/
def deleteTodoList (db : Db1) (todoListId : Nat) : Bool × Db1 × List Stmt :=
  let deleteResult := runStmt (.deleteTodolistById todoListId) db
  let confirmResult := runStmt (.deleteTodolistById todoListId) deleteResult.2
  (decide (deleteResult.1 > 0) && decide (confirmResult.1 = 0), confirmResult.2,
    [.deleteTodolistById todoListId, .deleteTodolistById todoListId])

/-- Modelled from the spec: `INSERT INTO todolists (title) VALUES ($1)`; the
schema (absent from src/) enforces a globally unique title in the single-user
variant (§3), so the insert throws the postgres unique-violation error when a
row with the same title exists, and otherwise appends a row with the next
generated id, resolving with rowCount 1. -/
def insertTodolists (db : Db1) (title : String) : Except String (Nat × Db1) :=
  if db.todolists.any (fun r => r.title == title) then
    .error "error: duplicate key value violates unique constraint \"todolists_title_key\""
  else
    .ok (1, { db with
      todolists := db.todolists ++ [{ id := db.nextId, title := title }],
      nextId := db.nextId + 1 })

/-- `createdTodoList(todoListTitle)`: tries the INSERT and applies the
try/catch of the source (`createdTodoListCatch`); the store is unchanged when
the insert throws. -/
def createdTodoList (db : Db1) (todoListTitle : String) : Except String Bool × Db1 :=
  match insertTodolists db todoListTitle with
  | .ok (rowCount, dbAfter) => (createdTodoListCatch (.ok rowCount), dbAfter)
  | .error e => (createdTodoListCatch (.error e), db)

/-- `completeAllTodos(todoListId)`: issues `MARK_ALL_COMPLETE` and
`NUM_TODOS` (awaited jointly; the UPDATE does not change which rows the
shared WHERE predicate matches, so the interleaving is immaterial — modelled
update-then-select) and returns whether the two row counts are equal. -/
def completeAllTodos (db : Db1) (todoListId : Nat) : Bool × Db1 :=
  let updateCount := (db.todos.filter (fun t => t.todolist_id == todoListId)).length
  let updatedTodos := db.todos.map (fun t =>
    if t.todolist_id == todoListId then { t with done := true } else t)
  let dbAfter := { db with todos := updatedTodos }
  let selectCount := (dbAfter.todos.filter (fun t => t.todolist_id == todoListId)).length
  (decide (updateCount = selectCount), dbAfter)

end PgPersistenceSingle

/-! ## Multi-user relational store

Every table carries a `username` column; the class holds `this.username`
(set from the session at construction), passed here as the first argument of
each method. -/

/-- A `todolists` row of the multi-user schema. -/
structure TodolistsRow where
  id : Nat
  title : String
  username : String
deriving Repr, DecidableEq

/-- A `todos` row of the multi-user schema. -/
structure TodosRow where
  id : Nat
  title : String
  done : Bool
  todolist_id : Nat
  username : String
deriving Repr, DecidableEq

/-- A `users` row: username and stored password hash. -/
structure UsersRow where
  username : String
  password : String
deriving Repr, DecidableEq

/-- Multi-user database: the three tables plus the id sequence the database
draws generated primary keys from. -/
structure MuDb where
  todolists : List TodolistsRow
  todos : List TodosRow
  users : List UsersRow
  nextId : Nat
deriving Repr, DecidableEq

namespace PgPersistenceMulti

/-- `loadTodoList(todoListId)`: the list row with the given id and username
and, attached, the todos rows of that list and username; `undefined` when the
list row is missing. -/
def loadTodoList (username : String) (db : MuDb) (todoListId : Nat) :
    Option (TodolistsRow × List TodosRow) :=
  let todoListRows := db.todolists.filter
    (fun r => r.id == todoListId && r.username == username)
  let todosRows := db.todos.filter
    (fun r => r.todolist_id == todoListId && r.username == username)
  match todoListRows with
  | [] => none
  | todoList :: _ => some (todoList, todosRows)

/-- `loadTodo(todoListId, todoId)`: the first row matching list id, todo id
and username. -/
def loadTodo (username : String) (db : MuDb) (todoListId todoId : Nat) :
    Option TodosRow :=
  (db.todos.filter (fun r =>
    r.todolist_id == todoListId && r.id == todoId && r.username == username)).head?

/-- `isDoneTodoList(todoList)` of the multi-user class, over a list row
joined with its todos rows. -/
def isDoneTodoList (todoList : TodolistsRow × List TodosRow) : Bool :=
  decide (todoList.2.length > 0) && todoList.2.all (fun todo => todo.done)

/-- `_partitionTodoLists(todoLists)`: pushes each list into an undone or done
group in traversal order and concatenates undone then done. -/
def _partitionTodoLists (todoLists : List (TodolistsRow × List TodosRow)) :
    List (TodolistsRow × List TodosRow) :=
  todoLists.filter (fun todoList => !isDoneTodoList todoList)
    ++ todoLists.filter (fun todoList => isDoneTodoList todoList)

/-- `sortedTodoLists()`: the user's list rows ordered by `LOWER(title)`
ascending, the user's todos rows, the in-memory join by foreign key
(`todo.todolist_id === todoList.id`), then the partition into undone and done
groups. -/
def sortedTodoLists (username : String) (db : MuDb) :
    List (TodolistsRow × List TodosRow) :=
  let allTodoLists := sortByLe (titleLe TodolistsRow.title)
    (db.todolists.filter (fun r => r.username == username))
  let allTodos := db.todos.filter (fun r => r.username == username)
  let joined := allTodoLists.map (fun todoList =>
    (todoList, allTodos.filter (fun todo => todo.todolist_id == todoList.id)))
  _partitionTodoLists joined

/-- `sortedTodos(todoList)`: the todos of the list and user, ordered by
`done, LOWER(title)` ascending (not-done before done, title ties by the
lower-cased title). -/
def sortedTodos (username : String) (db : MuDb) (todoListId : Nat) : List TodosRow :=
  sortByLe
    (fun a b => (!a.done && b.done) ||
      (a.done == b.done && jsStringLe (jsToLowerCase a.title) (jsToLowerCase b.title)))
    (db.todos.filter (fun r => r.todolist_id == todoListId && r.username == username))

/-- `existsTodoListTitle(title)`: row count of the user's lists with exactly
that title, compared against zero. -/
def existsTodoListTitle (username : String) (db : MuDb) (title : String) : Bool :=
  decide ((db.todolists.filter
    (fun r => r.title == title && r.username == username)).length > 0)

/-- The statements `deleteTodoList` can issue; the trace of issued statements
is part of the modelled result so that the confirmation step is observable. -/
inductive Stmt where
  | deleteTodolistByIdAndUser (id : Nat) (username : String)
  | selectTodosByListIdAndUser (id : Nat) (username : String)
deriving Repr, DecidableEq

/-- `deleteTodoList(todoListId)`: awaits `DELETE FROM todolists WHERE id = $1
AND username = $2` (whose cascade, modelled from the spec schema, also
removes the todos rows referencing the deleted lists), then awaits the
separate `CHECK_TODOS` SELECT counting the remaining todos of the list and
user, and returns `deleteResult.rowCount > 0 && confirmResult.rowCount === 0`.
The third component is the trace of issued statements, in order. -/
def deleteTodoList (username : String) (db : MuDb) (todoListId : Nat) :
    Bool × MuDb × List Stmt :=
  let deleted := db.todolists.filter
    (fun r => r.id == todoListId && r.username == username)
  let keptTodolists := db.todolists.filter
    (fun r => !(r.id == todoListId && r.username == username))
  let keptTodos := db.todos.filter
    (fun t => !(deleted.any (fun r => r.id == t.todolist_id)))
  let dbAfter := { db with todolists := keptTodolists, todos := keptTodos }
  let confirmCount : Nat := (dbAfter.todos.filter
    (fun t => t.todolist_id == todoListId && t.username == username)).length
  (decide (deleted.length > 0) && decide (confirmCount = 0), dbAfter,
    [.deleteTodolistByIdAndUser todoListId username,
     .selectTodosByListIdAndUser todoListId username])

/-- Modelled from the spec: `INSERT INTO todolists (title, username) VALUES
($1, $2)`; the schema (absent from src/) makes the title unique per owner
(§3), so the insert throws the postgres unique-violation error when the user
already has a row with the same title, and otherwise appends a row with the
next generated id, resolving with rowCount 1. -/
def insertTodolists (username : String) (db : MuDb) (title : String) :
    Except String (Nat × MuDb) :=
  if db.todolists.any (fun r => r.title == title && r.username == username) then
    .error "error: duplicate key value violates unique constraint \"unique_title_username\""
  else
    .ok (1, { db with
      todolists := db.todolists ++ [{ id := db.nextId, title := title, username := username }],
      nextId := db.nextId + 1 })

/-- `createdTodoList(todoListTitle)`: tries the INSERT and applies the
try/catch of the source (`createdTodoListCatch`); the store is unchanged when
the insert throws. -/
def createdTodoList (username : String) (db : MuDb) (todoListTitle : String) :
    Except String Bool × MuDb :=
  match insertTodolists username db todoListTitle with
  | .ok (rowCount, dbAfter) => (createdTodoListCatch (.ok rowCount), dbAfter)
  | .error e => (createdTodoListCatch (.error e), db)

/-- `toggleTodo(todoListId, todoId)`: `UPDATE todos SET done = NOT done`
scoped by list id, todo id and username; returns `rowCount > 0`. -/
def toggleTodo (username : String) (db : MuDb) (todoListId todoId : Nat) :
    Bool × MuDb :=
  let rowMatch := fun (t : TodosRow) =>
    t.todolist_id == todoListId && t.id == todoId && t.username == username
  let updatedTodos := db.todos.map (fun t =>
    if rowMatch t then { t with done := !t.done } else t)
  (decide ((db.todos.filter rowMatch).length > 0), { db with todos := updatedTodos })

/-- `deleteTodo(todoListId, todoId)`: the DELETE statement has three
placeholders (`todolist_id = $1 AND id = $2 AND username = $3`) but the
source invokes `dbQuery(DELETE_TODO, todoListId, todoId)` supplying only two
values, so the database rejects the bind and the call rejects with an error;
no row is read or modified. -/
def deleteTodo (_username : String) (db : MuDb) (_todoListId _todoId : Nat) :
    Except String Bool × MuDb :=
  (.error "error: bind message supplies 2 parameters, but prepared statement requires 3",
    db)

/-- Modelled from the spec: `INSERT INTO todos (title, todolist_id, username)
VALUES ($1, $2, $3)`; the foreign key `todos.todolist_id → todolists.id`
(absent from src/, §6) makes the insert throw when no list row with that id
exists in the whole table; otherwise the row is appended with the next
generated id and `done` defaulted to false, resolving with rowCount 1.
`addedTodo(todoListId, todoTitle)` returns `rowCount === 1`. -/
def addedTodo (username : String) (db : MuDb) (todoListId : Nat) (todoTitle : String) :
    Except String Bool × MuDb :=
  if db.todolists.any (fun r => r.id == todoListId) then
    let newRow : TodosRow :=
      { id := db.nextId, title := todoTitle, done := false,
        todolist_id := todoListId, username := username }
    (.ok true, { db with todos := db.todos ++ [newRow], nextId := db.nextId + 1 })
  else
    (.error "error: insert or update on table todos violates foreign key constraint",
      db)

/-- `completeAllTodos(todoListId)`: issues `MARK_ALL_COMPLETE` and
`NUM_TODOS`, both scoped by list id and username (awaited jointly; the UPDATE
does not change which rows the shared WHERE predicate matches, so the
interleaving is immaterial — modelled update-then-select), and returns
whether the two row counts are equal. -/
def completeAllTodos (username : String) (db : MuDb) (todoListId : Nat) :
    Bool × MuDb :=
  let rowMatch := fun (t : TodosRow) =>
    t.todolist_id == todoListId && t.username == username
  let updateCount := (db.todos.filter rowMatch).length
  let updatedTodos := db.todos.map (fun t =>
    if rowMatch t then { t with done := true } else t)
  let dbAfter := { db with todos := updatedTodos }
  let selectCount := (dbAfter.todos.filter rowMatch).length
  (decide (updateCount = selectCount), dbAfter)

/-- `setTodoListTitle(todoListId, todoListTitle)`: `UPDATE todolists SET
title = $1` scoped by id and username; returns `rowCount > 0`. -/
def setTodoListTitle (username : String) (db : MuDb) (todoListId : Nat)
    (todoListTitle : String) : Bool × MuDb :=
  let rowMatch := fun (r : TodolistsRow) =>
    r.id == todoListId && r.username == username
  let updatedTodolists := db.todolists.map (fun r =>
    if rowMatch r then { r with title := todoListTitle } else r)
  (decide ((db.todolists.filter rowMatch).length > 0),
    { db with todolists := updatedTodolists })

/-- `isValidLogin(username, password)`: looks up the stored password hash by
username; with no matching row it returns false; otherwise it compares the
supplied plaintext password against the stored hash.  The comparison
`bcrypt.compare` is a library call, modelled from the spec as an abstract
boolean comparison passed in as `compare`. -/
def isValidLogin (compare : String → String → Bool) (db : MuDb)
    (username password : String) : Bool :=
  match db.users.filter (fun r => r.username == username) with
  | [] => false
  | row :: _ => compare password row.password

end PgPersistenceMulti

/-! ## Scoping lemmas

Generic list lemmas used to prove that a query whose WHERE predicate entails
the username scope reads and writes only the scoped part of a table. -/

theorem filter_eq_of_scope (q w : α → Bool) (himp : ∀ a, q a = true → w a = true)
    {l₁ l₂ : List α} (h : l₁.filter w = l₂.filter w) :
    l₁.filter q = l₂.filter q := by
  have key : ∀ l : List α, l.filter q = (l.filter w).filter q := by
    intro l
    rw [List.filter_filter]
    exact List.filter_congr (fun a _ => by
      cases hq : q a
      · simp
      · simp [himp a hq])
  rw [key l₁, key l₂, h]

theorem any_eq_filter_not_isEmpty (q : α → Bool) :
    ∀ l : List α, l.any q = !(l.filter q).isEmpty := by
  intro l
  induction l with
  | nil => rfl
  | cons a l ih =>
    cases hq : q a
    · simp [List.filter_cons, hq, ih]
    · simp [List.filter_cons, hq]

theorem any_eq_of_scope (q w : α → Bool) (himp : ∀ a, q a = true → w a = true)
    {l₁ l₂ : List α} (h : l₁.filter w = l₂.filter w) :
    l₁.any q = l₂.any q := by
  rw [any_eq_filter_not_isEmpty, any_eq_filter_not_isEmpty,
    filter_eq_of_scope q w himp h]

theorem filter_keep_frame (keep w : α → Bool) {l : List α}
    (hkeep : ∀ a ∈ l, w a = true → keep a = true) :
    (l.filter keep).filter w = l.filter w := by
  rw [List.filter_filter]
  exact List.filter_congr (fun a ha => by
    cases hw : w a
    · simp
    · simp [hkeep a ha hw])

theorem filter_comm (p q : α → Bool) (l : List α) :
    (l.filter p).filter q = (l.filter q).filter p := by
  rw [List.filter_filter, List.filter_filter]
  exact List.filter_congr (fun a _ => Bool.and_comm _ _)

theorem filter_map_comm (g : α → α) (w : α → Bool) (hpres : ∀ a, w (g a) = w a)
    (l : List α) : (l.map g).filter w = (l.filter w).map g := by
  rw [List.filter_map]
  exact congrArg (List.map g) (List.filter_congr (fun a _ => hpres a))

theorem filter_map_frame (g : α → α) (w : α → Bool) {l : List α}
    (hpres : ∀ a, w (g a) = w a) (hfix : ∀ a ∈ l, w a = true → g a = a) :
    (l.map g).filter w = l.filter w := by
  rw [filter_map_comm g w hpres]
  have hid : ∀ a ∈ l.filter w, g a = id a := by
    intro a ha
    rcases List.mem_filter.mp ha with ⟨hm, hw⟩
    exact hfix a hm hw
  rw [List.map_congr_left hid, List.map_id]

/-! ## The multi-user operation set

The twelve operations named by the scoping claim, as one inductive, with a
step function dispatching to the method embeddings; the output sum type
collects the possible method results. -/

inductive MUOp where
  | loadTodoList (todoListId : Nat)
  | loadTodo (todoListId todoId : Nat)
  | sortedTodoLists
  | sortedTodos (todoListId : Nat)
  | existsTodoListTitle (title : String)
  | deleteTodoList (todoListId : Nat)
  | createdTodoList (title : String)
  | toggleTodo (todoListId todoId : Nat)
  | deleteTodo (todoListId todoId : Nat)
  | addedTodo (todoListId : Nat) (title : String)
  | completeAllTodos (todoListId : Nat)
  | setTodoListTitle (todoListId : Nat) (title : String)
deriving Repr, DecidableEq

deriving instance DecidableEq for Except

inductive MUOut where
  | maybeList : Option (TodolistsRow × List TodosRow) → MUOut
  | maybeTodo : Option TodosRow → MUOut
  | lists : List (TodolistsRow × List TodosRow) → MUOut
  | todos : List TodosRow → MUOut
  | flag : Bool → MUOut
  | result : Except String Bool → MUOut
deriving Repr, DecidableEq

/-- One call of the given method on a multi-user store constructed for
`username`, returning the method result and the database afterwards. -/
def applyMU (username : String) (op : MUOp) (db : MuDb) : MUOut × MuDb :=
  match op with
  | .loadTodoList id => (.maybeList (PgPersistenceMulti.loadTodoList username db id), db)
  | .loadTodo lid tid => (.maybeTodo (PgPersistenceMulti.loadTodo username db lid tid), db)
  | .sortedTodoLists => (.lists (PgPersistenceMulti.sortedTodoLists username db), db)
  | .sortedTodos lid => (.todos (PgPersistenceMulti.sortedTodos username db lid), db)
  | .existsTodoListTitle t => (.flag (PgPersistenceMulti.existsTodoListTitle username db t), db)
  | .deleteTodoList id =>
    let r := PgPersistenceMulti.deleteTodoList username db id
    (.flag r.1, r.2.1)
  | .createdTodoList t =>
    let r := PgPersistenceMulti.createdTodoList username db t
    (.result r.1, r.2)
  | .toggleTodo lid tid =>
    let r := PgPersistenceMulti.toggleTodo username db lid tid
    (.flag r.1, r.2)
  | .deleteTodo lid tid =>
    let r := PgPersistenceMulti.deleteTodo username db lid tid
    (.result r.1, r.2)
  | .addedTodo lid t =>
    let r := PgPersistenceMulti.addedTodo username db lid t
    (.result r.1, r.2)
  | .completeAllTodos id =>
    let r := PgPersistenceMulti.completeAllTodos username db id
    (.flag r.1, r.2)
  | .setTodoListTitle id t =>
    let r := PgPersistenceMulti.setTodoListTitle username db id t
    (.flag r.1, r.2)

/-- `op` is the `addedTodo` operation. -/
def MUOp.isAddedTodo : MUOp → Bool
  | .addedTodo _ _ => true
  | _ => false

/-- `op` is the `deleteTodoList` operation. -/
def MUOp.isDeleteTodoList : MUOp → Bool
  | .deleteTodoList _ => true
  | _ => false

/-- The two databases hold exactly the same rows of user `u` (in the same
order) and the same id-sequence state. -/
abbrev agreeOn (u : String) (db₁ db₂ : MuDb) : Prop :=
  db₁.todolists.filter (fun r => r.username == u)
    = db₂.todolists.filter (fun r => r.username == u) ∧
  db₁.todos.filter (fun r => r.username == u)
    = db₂.todos.filter (fun r => r.username == u) ∧
  db₁.nextId = db₂.nextId

/-- After the step, every row of every user other than `u` is exactly as
before, and the `users` table is untouched. -/
abbrev untouchedBesides (u : String) (db dbAfter : MuDb) : Prop :=
  dbAfter.todolists.filter (fun r => !(r.username == u))
    = db.todolists.filter (fun r => !(r.username == u)) ∧
  dbAfter.todos.filter (fun r => !(r.username == u))
    = db.todos.filter (fun r => !(r.username == u)) ∧
  dbAfter.users = db.users

/-- Ownership consistency: every todos row carries the username of the list
row it references. -/
abbrev wellOwned (db : MuDb) : Prop :=
  ∀ t ∈ db.todos, ∀ l ∈ db.todolists, t.todolist_id = l.id → t.username = l.username

/-- The two databases expose the same set of existing todolist ids (the fact
the foreign-key check of an insert into `todos` observes). -/
abbrev sameListIds (db₁ db₂ : MuDb) : Prop :=
  ∀ i : Nat, db₁.todolists.any (fun r => r.id == i)
    = db₂.todolists.any (fun r => r.id == i)

/-! ## Per-operation scoping lemmas (multi-user store) -/

theorem loadTodoList_agree (u : String) (lid : Nat) {db₁ db₂ : MuDb}
    (h : agreeOn u db₁ db₂) :
    PgPersistenceMulti.loadTodoList u db₁ lid
      = PgPersistenceMulti.loadTodoList u db₂ lid := by
  rcases h with ⟨h1, h2, _⟩
  have e1 : db₁.todolists.filter (fun r => r.id == lid && r.username == u)
      = db₂.todolists.filter (fun r => r.id == lid && r.username == u) :=
    filter_eq_of_scope _ _ (fun a ha => (Bool.and_eq_true_iff.mp ha).2) h1
  have e2 : db₁.todos.filter (fun r => r.todolist_id == lid && r.username == u)
      = db₂.todos.filter (fun r => r.todolist_id == lid && r.username == u) :=
    filter_eq_of_scope _ _ (fun a ha => (Bool.and_eq_true_iff.mp ha).2) h2
  unfold PgPersistenceMulti.loadTodoList
  rw [e1, e2]

theorem loadTodo_agree (u : String) (lid tid : Nat) {db₁ db₂ : MuDb}
    (h : agreeOn u db₁ db₂) :
    PgPersistenceMulti.loadTodo u db₁ lid tid
      = PgPersistenceMulti.loadTodo u db₂ lid tid := by
  rcases h with ⟨_, h2, _⟩
  have e : db₁.todos.filter
        (fun r => r.todolist_id == lid && r.id == tid && r.username == u)
      = db₂.todos.filter
        (fun r => r.todolist_id == lid && r.id == tid && r.username == u) :=
    filter_eq_of_scope _ _ (fun a ha => (Bool.and_eq_true_iff.mp ha).2) h2
  unfold PgPersistenceMulti.loadTodo
  rw [e]

theorem sortedTodoLists_agree (u : String) {db₁ db₂ : MuDb}
    (h : agreeOn u db₁ db₂) :
    PgPersistenceMulti.sortedTodoLists u db₁
      = PgPersistenceMulti.sortedTodoLists u db₂ := by
  rcases h with ⟨h1, h2, _⟩
  unfold PgPersistenceMulti.sortedTodoLists
  rw [h1, h2]

theorem sortedTodos_agree (u : String) (lid : Nat) {db₁ db₂ : MuDb}
    (h : agreeOn u db₁ db₂) :
    PgPersistenceMulti.sortedTodos u db₁ lid
      = PgPersistenceMulti.sortedTodos u db₂ lid := by
  rcases h with ⟨_, h2, _⟩
  have e : db₁.todos.filter (fun r => r.todolist_id == lid && r.username == u)
      = db₂.todos.filter (fun r => r.todolist_id == lid && r.username == u) :=
    filter_eq_of_scope _ _ (fun a ha => (Bool.and_eq_true_iff.mp ha).2) h2
  unfold PgPersistenceMulti.sortedTodos
  rw [e]

theorem existsTodoListTitle_agree (u : String) (t : String) {db₁ db₂ : MuDb}
    (h : agreeOn u db₁ db₂) :
    PgPersistenceMulti.existsTodoListTitle u db₁ t
      = PgPersistenceMulti.existsTodoListTitle u db₂ t := by
  rcases h with ⟨h1, _, _⟩
  have e : db₁.todolists.filter (fun r => r.title == t && r.username == u)
      = db₂.todolists.filter (fun r => r.title == t && r.username == u) :=
    filter_eq_of_scope _ _ (fun a ha => (Bool.and_eq_true_iff.mp ha).2) h1
  unfold PgPersistenceMulti.existsTodoListTitle
  rw [e]

theorem toggleTodo_frame (u : String) (db : MuDb) (lid tid : Nat) :
    untouchedBesides u db (PgPersistenceMulti.toggleTodo u db lid tid).2 := by
  refine ⟨rfl, ?_, rfl⟩
  show (db.todos.map _).filter _ = _
  apply filter_map_frame
  · intro a
    by_cases h : (a.todolist_id == lid && a.id == tid && a.username == u) = true
    · simp [h]
    · simp [h]
  · intro a _ ha
    have hu : (a.username == u) = false := by simpa using ha
    simp [hu]

theorem toggleTodo_agree (u : String) (lid tid : Nat) {db₁ db₂ : MuDb}
    (h : agreeOn u db₁ db₂) :
    (PgPersistenceMulti.toggleTodo u db₁ lid tid).1
      = (PgPersistenceMulti.toggleTodo u db₂ lid tid).1 ∧
    agreeOn u (PgPersistenceMulti.toggleTodo u db₁ lid tid).2
      (PgPersistenceMulti.toggleTodo u db₂ lid tid).2 := by
  rcases h with ⟨h1, h2, h3⟩
  have hpres : ∀ a : TodosRow,
      ((if a.todolist_id == lid && a.id == tid && a.username == u
        then { a with done := !a.done } else a).username == u) = (a.username == u) := by
    intro a
    by_cases hc : (a.todolist_id == lid && a.id == tid && a.username == u) = true
    · simp [hc]
    · simp [hc]
  have e := filter_eq_of_scope
    (fun r : TodosRow => r.todolist_id == lid && r.id == tid && r.username == u) _
    (fun a ha => (Bool.and_eq_true_iff.mp ha).2) h2
  refine ⟨?_, ?_, ?_, ?_⟩
  · show (decide _ : Bool) = decide _
    rw [e]
  · exact h1
  · show ((db₁.todos.map _).filter _ : List TodosRow) = (db₂.todos.map _).filter _
    rw [filter_map_comm _ _ hpres, filter_map_comm _ _ hpres, h2]
  · exact h3

theorem setTodoListTitle_frame (u : String) (db : MuDb) (lid : Nat) (t : String) :
    untouchedBesides u db (PgPersistenceMulti.setTodoListTitle u db lid t).2 := by
  refine ⟨?_, rfl, rfl⟩
  show (db.todolists.map _).filter _ = _
  apply filter_map_frame
  · intro a
    by_cases h : (a.id == lid && a.username == u) = true
    · simp [h]
    · simp [h]
  · intro a _ ha
    have hu : (a.username == u) = false := by simpa using ha
    simp [hu]

theorem setTodoListTitle_agree (u : String) (lid : Nat) (t : String) {db₁ db₂ : MuDb}
    (h : agreeOn u db₁ db₂) :
    (PgPersistenceMulti.setTodoListTitle u db₁ lid t).1
      = (PgPersistenceMulti.setTodoListTitle u db₂ lid t).1 ∧
    agreeOn u (PgPersistenceMulti.setTodoListTitle u db₁ lid t).2
      (PgPersistenceMulti.setTodoListTitle u db₂ lid t).2 := by
  rcases h with ⟨h1, h2, h3⟩
  have hpres : ∀ a : TodolistsRow,
      ((if a.id == lid && a.username == u
        then { a with title := t } else a).username == u) = (a.username == u) := by
    intro a
    by_cases hc : (a.id == lid && a.username == u) = true
    · simp [hc]
    · simp [hc]
  have e := filter_eq_of_scope
    (fun r : TodolistsRow => r.id == lid && r.username == u) _
    (fun a ha => (Bool.and_eq_true_iff.mp ha).2) h1
  refine ⟨?_, ?_, ?_, ?_⟩
  · show (decide _ : Bool) = decide _
    rw [e]
  · show ((db₁.todolists.map _).filter _ : List TodolistsRow) = (db₂.todolists.map _).filter _
    rw [filter_map_comm _ _ hpres, filter_map_comm _ _ hpres, h1]
  · exact h2
  · exact h3

/-- `completeAllTodos` of the multi-user store always reports success: the
UPDATE and the SELECT share the WHERE predicate and the update leaves the
predicate columns unchanged, so the two row counts coincide. -/
theorem completeAllTodosMulti_true (u : String) (db : MuDb) (lid : Nat) :
    (PgPersistenceMulti.completeAllTodos u db lid).1 = true := by
  have hpres : ∀ a : TodosRow,
      ((if a.todolist_id == lid && a.username == u
        then { a with done := true } else a).todolist_id == lid
        && (if a.todolist_id == lid && a.username == u
        then { a with done := true } else a).username == u)
        = (a.todolist_id == lid && a.username == u) := by
    intro a
    by_cases hc : (a.todolist_id == lid && a.username == u) = true
    · simp [hc]
    · simp [hc]
  show (decide _ : Bool) = true
  rw [decide_eq_true_eq]
  rw [filter_map_comm _ _ hpres, List.length_map]

theorem completeAllTodos_frame (u : String) (db : MuDb) (lid : Nat) :
    untouchedBesides u db (PgPersistenceMulti.completeAllTodos u db lid).2 := by
  refine ⟨rfl, ?_, rfl⟩
  show (db.todos.map _).filter _ = _
  apply filter_map_frame
  · intro a
    by_cases h : (a.todolist_id == lid && a.username == u) = true
    · simp [h]
    · simp [h]
  · intro a _ ha
    have hu : (a.username == u) = false := by simpa using ha
    simp [hu]

theorem completeAllTodos_agree (u : String) (lid : Nat) {db₁ db₂ : MuDb}
    (h : agreeOn u db₁ db₂) :
    (PgPersistenceMulti.completeAllTodos u db₁ lid).1
      = (PgPersistenceMulti.completeAllTodos u db₂ lid).1 ∧
    agreeOn u (PgPersistenceMulti.completeAllTodos u db₁ lid).2
      (PgPersistenceMulti.completeAllTodos u db₂ lid).2 := by
  rcases h with ⟨h1, h2, h3⟩
  have hpres : ∀ a : TodosRow,
      ((if a.todolist_id == lid && a.username == u
        then { a with done := true } else a).username == u) = (a.username == u) := by
    intro a
    by_cases hc : (a.todolist_id == lid && a.username == u) = true
    · simp [hc]
    · simp [hc]
  refine ⟨?_, ?_, ?_, ?_⟩
  · rw [completeAllTodosMulti_true, completeAllTodosMulti_true]
  · exact h1
  · show ((db₁.todos.map _).filter _ : List TodosRow) = (db₂.todos.map _).filter _
    rw [filter_map_comm _ _ hpres, filter_map_comm _ _ hpres, h2]
  · exact h3

theorem filter_scoped_eq (keep w : α → Bool) {l₁ l₂ : List α}
    (h : l₁.filter w = l₂.filter w) :
    (l₁.filter keep).filter w = (l₂.filter keep).filter w := by
  rw [List.filter_filter, List.filter_filter]
  exact filter_eq_of_scope _ w (fun a ha => (Bool.and_eq_true_iff.mp ha).1) h

theorem deleteTodoList_frame (u : String) {db : MuDb} (hwo : wellOwned db) (lid : Nat) :
    untouchedBesides u db (PgPersistenceMulti.deleteTodoList u db lid).2.1 := by
  refine ⟨?_, ?_, rfl⟩
  · show (db.todolists.filter _).filter _ = _
    apply filter_keep_frame
    intro a _ ha
    have hu : (a.username == u) = false := by simpa using ha
    simp [hu]
  · show (db.todos.filter _).filter _ = _
    apply filter_keep_frame
    intro t ht hw
    have hwt : (t.username == u) = false := by simpa using hw
    cases hany : (db.todolists.filter
        (fun r => r.id == lid && r.username == u)).any (fun r => r.id == t.todolist_id)
    · simp [hany]
    · exfalso
      rcases List.any_eq_true.mp hany with ⟨r, hrmem, hrid⟩
      rcases List.mem_filter.mp hrmem with ⟨hrtab, hrpred⟩
      have hru : r.username = u := by
        simpa using (Bool.and_eq_true_iff.mp hrpred).2
      have htid : t.todolist_id = r.id := by
        have : r.id = t.todolist_id := by simpa using hrid
        exact this.symm
      have hname := hwo t ht r hrtab htid
      rw [hname, hru] at hwt
      simp at hwt

theorem deleteTodoList_agree (u : String) (lid : Nat) {db₁ db₂ : MuDb}
    (h : agreeOn u db₁ db₂) :
    (PgPersistenceMulti.deleteTodoList u db₁ lid).1
      = (PgPersistenceMulti.deleteTodoList u db₂ lid).1 ∧
    agreeOn u (PgPersistenceMulti.deleteTodoList u db₁ lid).2.1
      (PgPersistenceMulti.deleteTodoList u db₂ lid).2.1 := by
  rcases h with ⟨h1, h2, h3⟩
  have hdel : db₁.todolists.filter (fun r => r.id == lid && r.username == u)
      = db₂.todolists.filter (fun r => r.id == lid && r.username == u) :=
    filter_eq_of_scope _ _ (fun a ha => (Bool.and_eq_true_iff.mp ha).2) h1
  have hkeptT :
      (db₁.todos.filter (fun t =>
          !((db₂.todolists.filter (fun r => r.id == lid && r.username == u)).any
            (fun r => r.id == t.todolist_id)))).filter (fun r => r.username == u)
      = (db₂.todos.filter (fun t =>
          !((db₂.todolists.filter (fun r => r.id == lid && r.username == u)).any
            (fun r => r.id == t.todolist_id)))).filter (fun r => r.username == u) :=
    filter_scoped_eq _ _ h2
  refine ⟨?_, ?_, ?_, ?_⟩
  · have hconf := filter_eq_of_scope
      (fun t : TodosRow => t.todolist_id == lid && t.username == u) _
      (fun a ha => (Bool.and_eq_true_iff.mp ha).2) hkeptT
    simp only [PgPersistenceMulti.deleteTodoList]
    rw [hdel, hconf]
  · show (db₁.todolists.filter _).filter _ = (db₂.todolists.filter _).filter _
    exact filter_scoped_eq _ _ h1
  · show (db₁.todos.filter _).filter _ = (db₂.todos.filter _).filter _
    rw [hdel]
    exact hkeptT
  · exact h3

theorem createdTodoList_frame (u : String) (db : MuDb) (t : String) :
    untouchedBesides u db (PgPersistenceMulti.createdTodoList u db t).2 := by
  by_cases hc : db.todolists.any (fun r => r.title == t && r.username == u) = true
  · refine ⟨?_, ?_, ?_⟩ <;>
      simp [PgPersistenceMulti.createdTodoList, PgPersistenceMulti.insertTodolists, hc]
  · have hcf : db.todolists.any (fun r => r.title == t && r.username == u) = false := by
      cases hx : db.todolists.any (fun r => r.title == t && r.username == u)
      · rfl
      · exact absurd hx hc
    refine ⟨?_, ?_, ?_⟩ <;>
      simp [PgPersistenceMulti.createdTodoList, PgPersistenceMulti.insertTodolists, hcf,
        List.filter_append]

theorem createdTodoList_agree (u : String) (t : String) {db₁ db₂ : MuDb}
    (h : agreeOn u db₁ db₂) :
    (PgPersistenceMulti.createdTodoList u db₁ t).1
      = (PgPersistenceMulti.createdTodoList u db₂ t).1 ∧
    agreeOn u (PgPersistenceMulti.createdTodoList u db₁ t).2
      (PgPersistenceMulti.createdTodoList u db₂ t).2 := by
  rcases h with ⟨h1, h2, h3⟩
  have hany := any_eq_of_scope (fun r : TodolistsRow => r.title == t && r.username == u) _
    (fun a ha => (Bool.and_eq_true_iff.mp ha).2) h1
  by_cases hc : db₁.todolists.any (fun r => r.title == t && r.username == u) = true
  · have hc₂ : db₂.todolists.any (fun r => r.title == t && r.username == u) = true := by
      rw [← hany]; exact hc
    refine ⟨?_, ?_, ?_, ?_⟩ <;>
      simp [PgPersistenceMulti.createdTodoList, PgPersistenceMulti.insertTodolists,
        hc, hc₂, h1, h2, h3]
  · have hcf : db₁.todolists.any (fun r => r.title == t && r.username == u) = false := by
      cases hx : db₁.todolists.any (fun r => r.title == t && r.username == u)
      · rfl
      · exact absurd hx hc
    have hcf₂ : db₂.todolists.any (fun r => r.title == t && r.username == u) = false := by
      rw [← hany]; exact hcf
    refine ⟨?_, ?_, ?_, ?_⟩
    · simp [PgPersistenceMulti.createdTodoList, PgPersistenceMulti.insertTodolists, hcf, hcf₂]
    · simp only [PgPersistenceMulti.createdTodoList, PgPersistenceMulti.insertTodolists,
        hcf, hcf₂]
      rw [h3]
      simp [List.filter_append, h1]
    · simp only [PgPersistenceMulti.createdTodoList, PgPersistenceMulti.insertTodolists,
        hcf, hcf₂]
      exact h2
    · simp only [PgPersistenceMulti.createdTodoList, PgPersistenceMulti.insertTodolists,
        hcf, hcf₂]
      rw [h3]
      simp

theorem addedTodo_frame (u : String) (db : MuDb) (lid : Nat) (t : String) :
    untouchedBesides u db (PgPersistenceMulti.addedTodo u db lid t).2 := by
  by_cases hc : db.todolists.any (fun r => r.id == lid) = true
  · refine ⟨?_, ?_, ?_⟩ <;>
      simp [PgPersistenceMulti.addedTodo, hc, List.filter_append]
  · have hcf : db.todolists.any (fun r => r.id == lid) = false := by
      cases hx : db.todolists.any (fun r => r.id == lid)
      · rfl
      · exact absurd hx hc
    refine ⟨?_, ?_, ?_⟩ <;> simp [PgPersistenceMulti.addedTodo, hcf]

theorem addedTodo_agree (u : String) (lid : Nat) (t : String) {db₁ db₂ : MuDb}
    (h : agreeOn u db₁ db₂) (hids : sameListIds db₁ db₂) :
    (PgPersistenceMulti.addedTodo u db₁ lid t).1
      = (PgPersistenceMulti.addedTodo u db₂ lid t).1 ∧
    agreeOn u (PgPersistenceMulti.addedTodo u db₁ lid t).2
      (PgPersistenceMulti.addedTodo u db₂ lid t).2 := by
  rcases h with ⟨h1, h2, h3⟩
  have hany := hids lid
  by_cases hc : db₁.todolists.any (fun r => r.id == lid) = true
  · have hc₂ : db₂.todolists.any (fun r => r.id == lid) = true := by
      rw [← hany]; exact hc
    refine ⟨?_, ?_, ?_, ?_⟩
    · simp [PgPersistenceMulti.addedTodo, hc, hc₂]
    · simp only [PgPersistenceMulti.addedTodo, hc, hc₂, if_true]
      exact h1
    · simp only [PgPersistenceMulti.addedTodo, hc, hc₂, if_true]
      rw [h3]
      simp [List.filter_append, h2]
    · simp only [PgPersistenceMulti.addedTodo, hc, hc₂, if_true]
      rw [h3]
  · have hcf : db₁.todolists.any (fun r => r.id == lid) = false := by
      cases hx : db₁.todolists.any (fun r => r.id == lid)
      · rfl
      · exact absurd hx hc
    have hcf₂ : db₂.todolists.any (fun r => r.id == lid) = false := by
      rw [← hany]; exact hcf
    refine ⟨?_, ?_, ?_, ?_⟩ <;>
      simp [PgPersistenceMulti.addedTodo, hcf, hcf₂, h1, h2, h3]

/-- C1 (amended): for every operation of the multi-user store, every table
row of any user other than the constructing username is untouched (for
`deleteTodoList` given ownership consistency, because its cascade follows the
foreign key regardless of the username column), the `users` table is never
written, and the result and the effect on the rows of `u` depend only on the
rows of `u` and the id sequence (for `addedTodo` also on the set of existing
list ids, which its foreign-key check observes). -/
theorem multiUser_username_scoping (u : String) (op : MUOp) :
    (∀ db : MuDb, op.isDeleteTodoList = false →
      untouchedBesides u db (applyMU u op db).2) ∧
    (∀ db : MuDb, wellOwned db → untouchedBesides u db (applyMU u op db).2) ∧
    (∀ db₁ db₂ : MuDb, agreeOn u db₁ db₂ →
      (op.isAddedTodo = false →
        (applyMU u op db₁).1 = (applyMU u op db₂).1 ∧
        agreeOn u (applyMU u op db₁).2 (applyMU u op db₂).2) ∧
      (sameListIds db₁ db₂ →
        (applyMU u op db₁).1 = (applyMU u op db₂).1 ∧
        agreeOn u (applyMU u op db₁).2 (applyMU u op db₂).2)) := by
  cases op with
  | loadTodoList lid =>
    refine ⟨fun db _ => ⟨rfl, rfl, rfl⟩, fun db _ => ⟨rfl, rfl, rfl⟩, fun db₁ db₂ h => ?_⟩
    have hres : (applyMU u (.loadTodoList lid) db₁).1
        = (applyMU u (.loadTodoList lid) db₂).1 :=
      congrArg MUOut.maybeList (loadTodoList_agree u lid h)
    exact ⟨fun _ => ⟨hres, h⟩, fun _ => ⟨hres, h⟩⟩
  | loadTodo lid tid =>
    refine ⟨fun db _ => ⟨rfl, rfl, rfl⟩, fun db _ => ⟨rfl, rfl, rfl⟩, fun db₁ db₂ h => ?_⟩
    have hres : (applyMU u (.loadTodo lid tid) db₁).1
        = (applyMU u (.loadTodo lid tid) db₂).1 :=
      congrArg MUOut.maybeTodo (loadTodo_agree u lid tid h)
    exact ⟨fun _ => ⟨hres, h⟩, fun _ => ⟨hres, h⟩⟩
  | sortedTodoLists =>
    refine ⟨fun db _ => ⟨rfl, rfl, rfl⟩, fun db _ => ⟨rfl, rfl, rfl⟩, fun db₁ db₂ h => ?_⟩
    have hres : (applyMU u .sortedTodoLists db₁).1 = (applyMU u .sortedTodoLists db₂).1 :=
      congrArg MUOut.lists (sortedTodoLists_agree u h)
    exact ⟨fun _ => ⟨hres, h⟩, fun _ => ⟨hres, h⟩⟩
  | sortedTodos lid =>
    refine ⟨fun db _ => ⟨rfl, rfl, rfl⟩, fun db _ => ⟨rfl, rfl, rfl⟩, fun db₁ db₂ h => ?_⟩
    have hres : (applyMU u (.sortedTodos lid) db₁).1 = (applyMU u (.sortedTodos lid) db₂).1 :=
      congrArg MUOut.todos (sortedTodos_agree u lid h)
    exact ⟨fun _ => ⟨hres, h⟩, fun _ => ⟨hres, h⟩⟩
  | existsTodoListTitle t =>
    refine ⟨fun db _ => ⟨rfl, rfl, rfl⟩, fun db _ => ⟨rfl, rfl, rfl⟩, fun db₁ db₂ h => ?_⟩
    have hres : (applyMU u (.existsTodoListTitle t) db₁).1
        = (applyMU u (.existsTodoListTitle t) db₂).1 :=
      congrArg MUOut.flag (existsTodoListTitle_agree u t h)
    exact ⟨fun _ => ⟨hres, h⟩, fun _ => ⟨hres, h⟩⟩
  | deleteTodoList lid =>
    refine ⟨fun db hfalse => absurd hfalse (by simp [MUOp.isDeleteTodoList]),
      fun db hwo => deleteTodoList_frame u hwo lid, fun db₁ db₂ h => ?_⟩
    have hcore := deleteTodoList_agree u lid h
    have hres : (applyMU u (.deleteTodoList lid) db₁).1
        = (applyMU u (.deleteTodoList lid) db₂).1 :=
      congrArg MUOut.flag hcore.1
    exact ⟨fun _ => ⟨hres, hcore.2⟩, fun _ => ⟨hres, hcore.2⟩⟩
  | createdTodoList t =>
    refine ⟨fun db _ => createdTodoList_frame u db t,
      fun db _ => createdTodoList_frame u db t, fun db₁ db₂ h => ?_⟩
    have hcore := createdTodoList_agree u t h
    have hres : (applyMU u (.createdTodoList t) db₁).1
        = (applyMU u (.createdTodoList t) db₂).1 :=
      congrArg MUOut.result hcore.1
    exact ⟨fun _ => ⟨hres, hcore.2⟩, fun _ => ⟨hres, hcore.2⟩⟩
  | toggleTodo lid tid =>
    refine ⟨fun db _ => toggleTodo_frame u db lid tid,
      fun db _ => toggleTodo_frame u db lid tid, fun db₁ db₂ h => ?_⟩
    have hcore := toggleTodo_agree u lid tid h
    have hres : (applyMU u (.toggleTodo lid tid) db₁).1
        = (applyMU u (.toggleTodo lid tid) db₂).1 :=
      congrArg MUOut.flag hcore.1
    exact ⟨fun _ => ⟨hres, hcore.2⟩, fun _ => ⟨hres, hcore.2⟩⟩
  | deleteTodo lid tid =>
    refine ⟨fun db _ => ⟨rfl, rfl, rfl⟩, fun db _ => ⟨rfl, rfl, rfl⟩, fun db₁ db₂ h => ?_⟩
    exact ⟨fun _ => ⟨rfl, h⟩, fun _ => ⟨rfl, h⟩⟩
  | addedTodo lid t =>
    refine ⟨fun db _ => addedTodo_frame u db lid t,
      fun db _ => addedTodo_frame u db lid t, fun db₁ db₂ h => ?_⟩
    refine ⟨fun hfalse => absurd hfalse (by simp [MUOp.isAddedTodo]), fun hids => ?_⟩
    have hcore := addedTodo_agree u lid t h hids
    exact ⟨congrArg MUOut.result hcore.1, hcore.2⟩
  | completeAllTodos lid =>
    refine ⟨fun db _ => completeAllTodos_frame u db lid,
      fun db _ => completeAllTodos_frame u db lid, fun db₁ db₂ h => ?_⟩
    have hcore := completeAllTodos_agree u lid h
    have hres : (applyMU u (.completeAllTodos lid) db₁).1
        = (applyMU u (.completeAllTodos lid) db₂).1 :=
      congrArg MUOut.flag hcore.1
    exact ⟨fun _ => ⟨hres, hcore.2⟩, fun _ => ⟨hres, hcore.2⟩⟩
  | setTodoListTitle lid t =>
    refine ⟨fun db _ => setTodoListTitle_frame u db lid t,
      fun db _ => setTodoListTitle_frame u db lid t, fun db₁ db₂ h => ?_⟩
    have hcore := setTodoListTitle_agree u lid t h
    have hres : (applyMU u (.setTodoListTitle lid t) db₁).1
        = (applyMU u (.setTodoListTitle lid t) db₂).1 :=
      congrArg MUOut.flag hcore.1
    exact ⟨fun _ => ⟨hres, hcore.2⟩, fun _ => ⟨hres, hcore.2⟩⟩

/-- A database in which the list row of user bob is referenced by a todos row
of user alice.  The state is reachable through the store interface itself:
`addedTodo` checks only that the referenced list id exists, so a store
constructed for alice can attach a todo to the list of bob. -/
def dbCrossRef : MuDb :=
  { todolists := [{ id := 7, title := "B", username := "bob" }],
    todos := [⟨1, "x", false, 7, "alice"⟩],
    users := [], nextId := 9 }

/-- A database holding only the list of bob. -/
def dbBobOnly : MuDb :=
  { todolists := [{ id := 7, title := "B", username := "bob" }],
    todos := [], users := [], nextId := 9 }

/-- An empty database with the same id-sequence state as `dbBobOnly`. -/
def dbNone : MuDb := { todolists := [], todos := [], users := [], nextId := 9 }

/-- C1 as stated is false at concrete inputs: (1) a `deleteTodoList` call by
bob removes a todos row whose username is alice, because the cascade follows
the foreign key and not the username scope; (2) an `addedTodo` call by alice
returns differently on two databases that agree on every row of alice,
because its foreign-key check observes whether the referenced list of bob
exists. -/
theorem multiUser_scoping_counterexample :
    ((PgPersistenceMulti.deleteTodoList "bob" dbCrossRef 7).2.1.todos.filter
        (fun r => r.username == "alice") = [] ∧
      dbCrossRef.todos.filter (fun r => r.username == "alice") ≠ []) ∧
    (agreeOn "alice" dbBobOnly dbNone ∧
      (PgPersistenceMulti.addedTodo "alice" dbBobOnly 7 "x").1
        ≠ (PgPersistenceMulti.addedTodo "alice" dbNone 7 "x").1) := by
  refine ⟨⟨rfl, by decide⟩, ⟨by decide, by decide⟩⟩

/-- A well-owned single-user-populated database used as witness input. -/
def dbW : MuDb :=
  { todolists := [{ id := 1, title := "A", username := "alice" }],
    todos := [⟨2, "m", false, 1, "alice"⟩],
    users := [], nextId := 10 }

/-- Witness for the scoping theorem: applied at concrete inputs, discharging
the ownership-consistency, agreement, operation-kind and list-id hypotheses
there. -/
theorem multiUser_username_scoping_witness :
    untouchedBesides "alice" dbW (applyMU "alice" (.deleteTodoList 1) dbW).2 ∧
    ((applyMU "alice" (.toggleTodo 1 2) dbW).1 = (applyMU "alice" (.toggleTodo 1 2) dbW).1 ∧
      agreeOn "alice" (applyMU "alice" (.toggleTodo 1 2) dbW).2
        (applyMU "alice" (.toggleTodo 1 2) dbW).2) ∧
    ((applyMU "alice" (.addedTodo 1 "t") dbW).1 = (applyMU "alice" (.addedTodo 1 "t") dbW).1 ∧
      agreeOn "alice" (applyMU "alice" (.addedTodo 1 "t") dbW).2
        (applyMU "alice" (.addedTodo 1 "t") dbW).2) :=
  ⟨(multiUser_username_scoping "alice" (.deleteTodoList 1)).2.1 dbW (by decide),
   ((multiUser_username_scoping "alice" (.toggleTodo 1 2)).2.2 dbW dbW (by decide)).1
     (by decide),
   ((multiUser_username_scoping "alice" (.addedTodo 1 "t")).2.2 dbW dbW (by decide)).2
     (fun _ => rfl)⟩

/-- C2: in all three store variants, `isDoneTodoList` is true exactly when
the todos collection is non-empty and every todo is done; in particular an
empty collection yields false. -/
theorem isDoneTodoList_iff :
    (∀ L : TodoList, SessionPersistence.isDoneTodoList L = true ↔
      L.todos ≠ [] ∧ ∀ t ∈ L.todos, t.done = true) ∧
    (∀ L : Todolists1Row × List Todos1Row,
      PgPersistenceSingle.isDoneTodoList L = true ↔
        L.2 ≠ [] ∧ ∀ t ∈ L.2, t.done = true) ∧
    (∀ L : TodolistsRow × List TodosRow,
      PgPersistenceMulti.isDoneTodoList L = true ↔
        L.2 ≠ [] ∧ ∀ t ∈ L.2, t.done = true) := by
  refine ⟨fun L => ?_, fun L => ?_, fun L => ?_⟩ <;>
    simp [SessionPersistence.isDoneTodoList, PgPersistenceSingle.isDoneTodoList,
      PgPersistenceMulti.isDoneTodoList, List.all_eq_true, List.length_pos]

/-- Nondecreasing in the case-insensitive title order established by
`compareByTitle`. -/
def titleSorted (title : α → String) (l : List α) : Prop :=
  l.Pairwise (fun a b => titleLe title a b = true)

/-- The collection of lists-with-todos of user `u`, joined in table order:
the store contents that `sortedTodoLists` reorders. -/
def muUserLists (u : String) (db : MuDb) : List (TodolistsRow × List TodosRow) :=
  (db.todolists.filter (fun r => r.username == u)).map
    (fun l => (l, (db.todos.filter (fun r => r.username == u)).filter
      (fun todo => todo.todolist_id == l.id)))

/-- C3: `sortedTodoLists` returns the not-done lists in ascending
case-insensitive title order followed by the done lists in the same order —
exactly a partition of the held lists — in the session-backed store and in
the multi-user relational store; both calls read the store without mutating
it, so repeated calls return the same sequence. -/
theorem sortedTodoLists_partition :
    (∀ todoLists : List TodoList,
      ∃ und dn, SessionPersistence.sortedTodoLists todoLists = und ++ dn ∧
        und.Perm (todoLists.filter (fun l => !SessionPersistence.isDoneTodoList l)) ∧
        dn.Perm (todoLists.filter (fun l => SessionPersistence.isDoneTodoList l)) ∧
        titleSorted TodoList.title und ∧ titleSorted TodoList.title dn) ∧
    (∀ (u : String) (db : MuDb),
      ∃ und dn, PgPersistenceMulti.sortedTodoLists u db = und ++ dn ∧
        und.Perm ((muUserLists u db).filter
          (fun L => !PgPersistenceMulti.isDoneTodoList L)) ∧
        dn.Perm ((muUserLists u db).filter
          (fun L => PgPersistenceMulti.isDoneTodoList L)) ∧
        titleSorted (fun L => L.1.title) und ∧ titleSorted (fun L => L.1.title) dn) := by
  constructor
  · intro todoLists
    refine ⟨sortByLe (titleLe TodoList.title)
        (todoLists.filter (fun l => !SessionPersistence.isDoneTodoList l)),
      sortByLe (titleLe TodoList.title)
        (todoLists.filter (fun l => SessionPersistence.isDoneTodoList l)),
      rfl, sortByLe_perm _ _, sortByLe_perm _ _,
      sortByLe_pairwise _ (titleLe_total _) (titleLe_trans _) _,
      sortByLe_pairwise _ (titleLe_total _) (titleLe_trans _) _⟩
  · intro u db
    refine ⟨((sortByLe (titleLe TodolistsRow.title)
        (db.todolists.filter (fun r => r.username == u))).map
          (fun l : TodolistsRow => (l, (db.todos.filter (fun r : TodosRow => r.username == u)).filter
            (fun todo : TodosRow => todo.todolist_id == l.id)))).filter
        (fun L => !PgPersistenceMulti.isDoneTodoList L),
      ((sortByLe (titleLe TodolistsRow.title)
        (db.todolists.filter (fun r => r.username == u))).map
          (fun l : TodolistsRow => (l, (db.todos.filter (fun r : TodosRow => r.username == u)).filter
            (fun todo : TodosRow => todo.todolist_id == l.id)))).filter
        (fun L => PgPersistenceMulti.isDoneTodoList L),
      rfl, ?_, ?_, ?_, ?_⟩
    · exact ((sortByLe_perm _ _).map _).filter _
    · exact ((sortByLe_perm _ _).map _).filter _
    · refine List.Pairwise.sublist (List.filter_sublist _) ?_
      exact List.pairwise_map.mpr
        (sortByLe_pairwise _ (titleLe_total _) (titleLe_trans _) _)
    · refine List.Pairwise.sublist (List.filter_sublist _) ?_
      exact List.pairwise_map.mpr
        (sortByLe_pairwise _ (titleLe_total _) (titleLe_trans _) _)

/-- A session store holding one list whose only todo sits at index 0. -/
def exTodoList : TodoList := { id := 1, title := "A", todos := [⟨5, "Milk", false⟩] }

/-- A session store list with two todos, used to exhibit the splice on a
not-found todo id. -/
def exTodoListTwo : TodoList :=
  { id := 1, title := "A", todos := [⟨5, "Milk", false⟩, ⟨6, "Eggs", true⟩] }

/-- C4 fails on the code: `deleteTodo(1, 5)` on a store whose matching todo
sits at index 0 returns `undefined` (no success flag at all — the `!todoIndex`
test treats index 0 as not-found) and leaves the store unchanged; and
`deleteTodo(1, 99)` with a todo id that matches nothing takes `findIndex`
result `-1`, which is truthy, and `splice(-1, 1)` removes the LAST todo while
still returning `undefined`. -/
theorem sessionDeleteTodo_bug :
    SessionPersistence.deleteTodo [exTodoList] 1 5 = (none, [exTodoList]) ∧
    SessionPersistence.deleteTodo [exTodoListTwo] 1 99
      = (none, [{ id := 1, title := "A", todos := [⟨5, "Milk", false⟩] }]) := ⟨rfl, rfl⟩

/-- A single-user database holding list 1 with one todo. -/
def db1Ex : Db1 := { todolists := [⟨1, "A"⟩], todos := [⟨2, "x", false, 1⟩], nextId := 5 }

/-- C5 fails on the single-user code: the confirmation step of
`deleteTodoList(1)` re-executes the DELETE statement instead of issuing the
separate SELECT over the todos of the list (the trace records two DELETEs and
no SELECT), although the returned flag is still true on an existing id. -/
theorem deleteTodoListSingle_confirm_is_delete :
    (PgPersistenceSingle.deleteTodoList db1Ex 1).2.2
      = [.deleteTodolistById 1, .deleteTodolistById 1] ∧
    (∀ s ∈ (PgPersistenceSingle.deleteTodoList db1Ex 1).2.2,
      ∀ i : Nat, s ≠ PgPersistenceSingle.Stmt.selectTodosByListId i) ∧
    (PgPersistenceSingle.deleteTodoList db1Ex 1).1 = true := by
  refine ⟨rfl, ?_, rfl⟩
  intro s hs i
  have : s = PgPersistenceSingle.Stmt.deleteTodolistById 1 := by
    rcases List.mem_cons.mp hs with h | h
    · exact h
    · rcases List.mem_cons.mp h with h2 | h2
      · exact h2
      · cases h2
  rw [this]
  intro hcontra
  cases hcontra

/-- C7 fails on the session-store code: `toggleTodo` dereferences the
unguarded `_findTodo` result, so on a store with no matching list or todo the
call throws a TypeError instead of reporting failure. -/
theorem sessionToggleTodo_throws :
    SessionPersistence.toggleTodo [] 1 1
      = .error "TypeError: cannot set property done of undefined" := rfl

/-- C6: in both relational variants, `createdTodoList` returns false exactly
when the INSERT fails with a uniqueness-constraint violation (duplicate title
for the same owner), a successful insert returns true with the row added, and
an error the classifier does not recognise is rethrown to the caller. -/
theorem createdTodoList_error_contract :
    (∀ (db : Db1) (t : String),
      db.todolists.any (fun r => r.title == t) = true →
        (PgPersistenceSingle.createdTodoList db t).1 = .ok false ∧
        (PgPersistenceSingle.createdTodoList db t).2 = db) ∧
    (∀ (db : Db1) (t : String),
      db.todolists.any (fun r => r.title == t) = false →
        (PgPersistenceSingle.createdTodoList db t).1 = .ok true) ∧
    (∀ (u : String) (db : MuDb) (t : String),
      db.todolists.any (fun r => r.title == t && r.username == u) = true →
        (PgPersistenceMulti.createdTodoList u db t).1 = .ok false ∧
        (PgPersistenceMulti.createdTodoList u db t).2 = db) ∧
    (∀ (u : String) (db : MuDb) (t : String),
      db.todolists.any (fun r => r.title == t && r.username == u) = false →
        (PgPersistenceMulti.createdTodoList u db t).1 = .ok true) ∧
    (∀ e : String, isUniqueConstraintViolation e = true →
      createdTodoListCatch (.error e) = .ok false) ∧
    (∀ e : String, isUniqueConstraintViolation e = false →
      createdTodoListCatch (.error e) = .error e) := by
  refine ⟨?_, ?_, ?_, ?_, ?_, ?_⟩
  · intro db t hc
    constructor
    · simp only [PgPersistenceSingle.createdTodoList, PgPersistenceSingle.insertTodolists]
      rw [hc]
      rfl
    · simp only [PgPersistenceSingle.createdTodoList, PgPersistenceSingle.insertTodolists]
      rw [hc]
      rfl
  · intro db t hc
    simp only [PgPersistenceSingle.createdTodoList, PgPersistenceSingle.insertTodolists]
    rw [hc]
    rfl
  · intro u db t hc
    constructor
    · simp only [PgPersistenceMulti.createdTodoList, PgPersistenceMulti.insertTodolists]
      rw [hc]
      rfl
    · simp only [PgPersistenceMulti.createdTodoList, PgPersistenceMulti.insertTodolists]
      rw [hc]
      rfl
  · intro u db t hc
    simp only [PgPersistenceMulti.createdTodoList, PgPersistenceMulti.insertTodolists]
    rw [hc]
    rfl
  · intro e he
    simp [createdTodoListCatch, he]
  · intro e he
    simp [createdTodoListCatch, he]

/-- A multi-user database with one user row, for the login witness. -/
def dbUsers : MuDb :=
  { todolists := [], todos := [], users := [⟨"alice", "hash"⟩], nextId := 1 }

/-- Witness for the createdTodoList contract, at concrete inputs. -/
theorem createdTodoList_error_contract_witness :
    (PgPersistenceSingle.createdTodoList db1Ex "A").1 = .ok false ∧
    (PgPersistenceSingle.createdTodoList db1Ex "B").1 = .ok true ∧
    (PgPersistenceMulti.createdTodoList "alice" dbW "A").1 = .ok false ∧
    (PgPersistenceMulti.createdTodoList "alice" dbW "B").1 = .ok true ∧
    createdTodoListCatch
      (.error "error: duplicate key value violates unique constraint \"k\"") = .ok false ∧
    createdTodoListCatch (.error "error: deadlock detected")
      = .error "error: deadlock detected" :=
  ⟨(createdTodoList_error_contract.1 db1Ex "A" (by decide)).1,
   createdTodoList_error_contract.2.1 db1Ex "B" (by decide),
   (createdTodoList_error_contract.2.2.1 "alice" dbW "A" (by decide)).1,
   createdTodoList_error_contract.2.2.2.1 "alice" dbW "B" (by decide),
   createdTodoList_error_contract.2.2.2.2.1 _ (by decide),
   createdTodoList_error_contract.2.2.2.2.2 _ (by decide)⟩

/-- C8 fails on the code: `Array.prototype.sort` sorts in place, so after a
`sortTodoItems` call the caller-visible `undone` array is reordered rather
than unchanged. -/
theorem sortTodoItems_mutates_input :
    (sortTodoItems (fun t : Todo => t.title) [⟨1, "b", false⟩, ⟨2, "a", false⟩] []).1
      ≠ [⟨1, "b", false⟩, ⟨2, "a", false⟩] := by
  have h : (sortTodoItems (fun t : Todo => t.title)
      [⟨1, "b", false⟩, ⟨2, "a", false⟩] []).1
      = [⟨2, "a", false⟩, ⟨1, "b", false⟩] := rfl
  rw [h]
  decide

/-- C8 (amended): `sortTodoItems` reorders its two argument collections in
place — each becomes a permutation of itself sorted nondecreasingly by
case-insensitive title — and has no further effect: no item is added,
removed, or modified, and the returned array is exactly the reordered
`undone` followed by the reordered `done`. -/
theorem sortTodoItems_effects (title : α → String) (undone done : List α) :
    (sortTodoItems title undone done).1.Perm undone ∧
    (sortTodoItems title undone done).2.1.Perm done ∧
    titleSorted title (sortTodoItems title undone done).1 ∧
    titleSorted title (sortTodoItems title undone done).2.1 ∧
    (sortTodoItems title undone done).2.2
      = (sortTodoItems title undone done).1 ++ (sortTodoItems title undone done).2.1 :=
  ⟨sortByLe_perm _ _, sortByLe_perm _ _,
   sortByLe_pairwise _ (titleLe_total _) (titleLe_trans _) _,
   sortByLe_pairwise _ (titleLe_total _) (titleLe_trans _) _, rfl⟩

/-- C9: `isValidLogin` fails closed when no user row matches the username,
otherwise returns exactly the hash comparison on the stored hash; and the
boolean never distinguishes an unknown username from a wrong password — both
failure modes give the same result. -/
theorem isValidLogin_spec :
    (∀ (compare : String → String → Bool) (db : MuDb) (username password : String),
      db.users.filter (fun r => r.username == username) = [] →
        PgPersistenceMulti.isValidLogin compare db username password = false) ∧
    (∀ (compare : String → String → Bool) (db : MuDb) (username password : String)
        (row : UsersRow) (rest : List UsersRow),
      db.users.filter (fun r => r.username == username) = row :: rest →
        PgPersistenceMulti.isValidLogin compare db username password
          = compare password row.password) ∧
    (∀ (compare : String → String → Bool) (db₁ db₂ : MuDb) (u₁ u₂ p₁ p₂ : String),
      db₁.users.filter (fun r => r.username == u₁) = [] →
      (∀ row ∈ db₂.users.filter (fun r => r.username == u₂),
        compare p₂ row.password = false) →
      PgPersistenceMulti.isValidLogin compare db₁ u₁ p₁
        = PgPersistenceMulti.isValidLogin compare db₂ u₂ p₂) := by
  refine ⟨?_, ?_, ?_⟩
  · intro compare db username password h
    simp [PgPersistenceMulti.isValidLogin, h]
  · intro compare db username password row rest h
    simp [PgPersistenceMulti.isValidLogin, h]
  · intro compare db₁ db₂ u₁ u₂ p₁ p₂ h1 h2
    have hL : PgPersistenceMulti.isValidLogin compare db₁ u₁ p₁ = false := by
      simp [PgPersistenceMulti.isValidLogin, h1]
    rw [hL]
    cases hx : db₂.users.filter (fun r => r.username == u₂) with
    | nil => simp [PgPersistenceMulti.isValidLogin, hx]
    | cons row rest =>
      have hmem : row ∈ db₂.users.filter (fun r => r.username == u₂) := by
        rw [hx]
        exact List.mem_cons_self _ _
      have hcmp := h2 row hmem
      simp [PgPersistenceMulti.isValidLogin, hx, hcmp]

/-- Witness for the login contract, at concrete inputs. -/
theorem isValidLogin_spec_witness :
    PgPersistenceMulti.isValidLogin (fun p h => p == h) dbUsers "bob" "x" = false ∧
    PgPersistenceMulti.isValidLogin (fun p h => p == h) dbUsers "alice" "hash"
      = ((fun p h => p == h) "hash" (⟨"alice", "hash"⟩ : UsersRow).password) ∧
    PgPersistenceMulti.isValidLogin (fun p h => p == h) dbUsers "bob" "x"
      = PgPersistenceMulti.isValidLogin (fun p h => p == h) dbUsers "alice" "wrong" :=
  ⟨isValidLogin_spec.1 _ dbUsers "bob" "x" (by decide),
   isValidLogin_spec.2.1 _ dbUsers "alice" "hash" ⟨"alice", "hash"⟩ [] (by decide),
   isValidLogin_spec.2.2 _ dbUsers dbUsers "bob" "alice" "x" "wrong" (by decide) (by decide)⟩

theorem completeAllTodosSingle_true (db : Db1) (lid : Nat) :
    (PgPersistenceSingle.completeAllTodos db lid).1 = true := by
  have hpres : ∀ a : Todos1Row,
      ((if a.todolist_id == lid then { a with done := true } else a).todolist_id == lid)
        = (a.todolist_id == lid) := by
    intro a
    by_cases hc : (a.todolist_id == lid) = true
    · simp [hc]
    · simp [hc]
  show (decide _ : Bool) = true
  rw [decide_eq_true_eq]
  rw [filter_map_comm _ _ hpres, List.length_map]

/-- C10: in both relational variants, `completeAllTodos` returns true on
every input, including ids matching no list: the UPDATE and the SELECT share
one WHERE predicate, the update does not change the predicate columns, so
the two row counts always coincide and false is never returned. -/
theorem completeAllTodos_always_true :
    (∀ (db : Db1) (lid : Nat), (PgPersistenceSingle.completeAllTodos db lid).1 = true) ∧
    (∀ (u : String) (db : MuDb) (lid : Nat),
      (PgPersistenceMulti.completeAllTodos u db lid).1 = true) :=
  ⟨completeAllTodosSingle_true, completeAllTodosMulti_true⟩
